import Mathlib

/-!
Shallow embedding of `samples/kvsapp-ingenic-t31/source/t31_audio.c`.

Bytes are modeled as `Nat` (their values are only copied, never computed
with).  The PCM backing store `pPcmBuf` is modeled by its valid prefix:
the first `uPcmOffset` bytes, which are exactly the bytes the code has
written and not yet handed to the encoder (bytes at or beyond the fill
offset are stale and are always overwritten before they are read, since
a block is only consumed when the buffer has been filled up to
`uPcmBufSize`).  `uPcmTimestamp` is a C `uint64_t`; its increment
`uPcmTimestamp += timediff` is modeled with an explicit `% 2 ^ 64`.
The size arithmetic (`size_t` offsets and lengths) never approaches the
machine word size on the reachable states the claims quantify over, so
it is modeled on `Nat` directly.

External collaborators (`AacEncoder_encode`, `KVS_MALLOC`,
`KvsApp_addFrame`, the IMP device calls, locks, threads) are not part of
this repository; their outcomes are oracle parameters, and the calls the
code makes to them are recorded in ghost logs.
-/

/-- The modulus of C `uint64_t` arithmetic, `2 ^ 64`. -/
def M64 : Nat := 2 ^ 64

/-- The track tag passed to `KvsApp_addFrame`; the audio path always
passes `TRACK_AUDIO`. -/
inductive TrackType where
  | videoTrack : TrackType
  | audioTrack : TrackType
deriving DecidableEq, Repr

/-- One `KvsApp_addFrame(pData, uDataLen, uDataLen, ts, track)` call:
`pData` is the freshly allocated copy of the first `uDataLen` bytes of
`pFrameBuf`, and both size arguments equal `uDataLen`. -/
structure Submission where
  pData : List Nat
  uDataSize : Nat
  uDataLen : Nat
  timestamp : Nat
  track : TrackType
deriving DecidableEq, Repr

/-- Outcome of one `AacEncoder_encode` call together with the outcome of
the `KVS_MALLOC(uDataLen)` for the output copy: `encFail` models a
nonzero return; `encOk out allocOk` models a zero return that wrote the
bytes `out` into `pFrameBuf` (so the returned `xFrameLen` is
`out.length`), with `allocOk` the success of the subsequent allocation. -/
inductive EncOutcome where
  | encFail : EncOutcome
  | encOk : List Nat → Bool → EncOutcome
deriving DecidableEq, Repr

/-- The encode-and-dispatch step performed for one completed block
(`t31_audio.c` lines 178-196): on encoder failure only a log happens; on
success, if the output length is zero or the allocation fails the block
is dropped, otherwise the output is copied and handed to
`KvsApp_addFrame` tagged `TRACK_AUDIO` with the current
`uPcmTimestamp`. -/
def processBlock (o : EncOutcome) (ts : Nat) : Option Submission :=
  match o with
  | EncOutcome.encFail => none
  | EncOutcome.encOk out allocOk =>
      if out.length = 0 ∨ allocOk = false then none
      else some ⟨out, out.length, out.length, ts, TrackType.audioTrack⟩

/-- Ghost record of one completed block: `data` is the `uPcmBufSize`
bytes of `pPcmBuf` handed to `AacEncoder_encode`, `ts` the value of
`uPcmTimestamp` at that moment, and `sub` the `KvsApp_addFrame` call
made for it, if any. -/
structure BlockLog where
  data : List Nat
  ts : Nat
  sub : Option Submission
deriving DecidableEq, Repr

/-- The mutable fields of `T31Audio_t` that `sendAudioFrame` touches:
the fill offset, the valid prefix of `pPcmBuf`, and the running
timestamp. -/
structure AudioState where
  uPcmOffset : Nat
  pcmBuf : List Nat
  uPcmTimestamp : Nat
deriving DecidableEq, Repr

/-- Result of one `sendAudioFrame` call: the updated accumulator and
timestamp state plus the ghost log of completed blocks (in order). -/
structure LoopResult where
  uPcmOffset : Nat
  pcmBuf : List Nat
  uPcmTimestamp : Nat
  blocks : List BlockLog
deriving DecidableEq, Repr

/-- The `timediff` computed at line 198,
`(uPcmBufSize * 1000) / (sampleRate * 2)`. -/
def blockDurationMs (cap sampleRate : Nat) : Nat :=
  (cap * 1000) / (sampleRate * 2)

/-- The `while (xFrameOffset < pFrame->len)` loop of `sendAudioFrame`
(lines 159-201).  `off`, `buf`, `ts` are the current `uPcmOffset`,
valid prefix of `pPcmBuf`, and `uPcmTimestamp`; `rest` is the not yet
consumed suffix of the device frame; `enc` gives the outcome of the
`n`-th encoder call of the run and `nEnc` the number of encoder calls
already made.  When the remaining capacity is larger than the remaining
input, the input is copied and the loop ends; otherwise exactly the
remaining capacity is copied, the full buffer is encoded and dispatched,
the offset resets to `0`, the timestamp advances by `timediff` (in
`uint64_t` arithmetic), and the loop continues on the leftover input.
`none` models the case in which the loop makes no progress and never
terminates (only possible when `uPcmBufSize - uPcmOffset = 0`, i.e. on
states unreachable from a valid configuration). -/
def sendLoop (cap sampleRate : Nat) (enc : Nat → EncOutcome) (nEnc : Nat)
    (off : Nat) (buf : List Nat) (ts : Nat) (rest : List Nat) : Option LoopResult :=
  if rest.length = 0 then some ⟨off, buf, ts, []⟩
  else if rest.length < cap - off then
    some ⟨off + rest.length, buf ++ rest, ts, []⟩
  else if cap - off = 0 then none
  else
    match sendLoop cap sampleRate enc (nEnc + 1) 0 []
        ((ts + blockDurationMs cap sampleRate) % M64) (rest.drop (cap - off)) with
    | none => none
    | some r =>
        some ⟨r.uPcmOffset, r.pcmBuf, r.uPcmTimestamp,
          ⟨buf ++ rest.take (cap - off), ts, processBlock (enc nEnc) ts⟩ :: r.blocks⟩
termination_by rest.length
decreasing_by
  simp only [List.length_drop]
  omega

/-- One `sendAudioFrame(pAudio, pFrame)` call with non-null arguments:
if the buffer is empty the timestamp is first re-seeded from
`getEpochTimestampInMs()` (modeled by `now`, line 152-155), then the
absorb loop runs.  On this path the C function always returns
`ERRNO_NONE`. -/
def sendAudioFrame (cap sampleRate : Nat) (enc : Nat → EncOutcome) (nEnc : Nat)
    (now : Nat) (st : AudioState) (frame : List Nat) : Option LoopResult :=
  let ts0 := if st.uPcmOffset = 0 then now else st.uPcmTimestamp
  sendLoop cap sampleRate enc nEnc st.uPcmOffset st.pcmBuf ts0 frame

/-- A sequence of `sendAudioFrame` calls, one per device frame, each
frame paired with the wall-clock value `getEpochTimestampInMs()` would
return at its arrival.  Returns the final state and the concatenated
block log. -/
def runFrames (cap sampleRate : Nat) (enc : Nat → EncOutcome) :
    AudioState → Nat → List (Nat × List Nat) → Option (AudioState × List BlockLog)
  | st, _, [] => some (st, [])
  | st, nEnc, (now, f) :: rest =>
      match sendAudioFrame cap sampleRate enc nEnc now st f with
      | none => none
      | some r =>
          match runFrames cap sampleRate enc ⟨r.uPcmOffset, r.pcmBuf, r.uPcmTimestamp⟩
              (nEnc + r.blocks.length) rest with
          | none => none
          | some (st2, blks) => some (st2, r.blocks ++ blks)

/-- Projection of a `sendAudioFrame` result onto everything except the
encode/dispatch outcomes: the accumulator state, the timestamp state,
and the data and timestamp of every completed block. -/
def stripSubs (r : LoopResult) : Nat × List Nat × Nat × List (List Nat × Nat) :=
  (r.uPcmOffset, r.pcmBuf, r.uPcmTimestamp, r.blocks.map (fun b => (b.data, b.ts)))

/-- The outcomes of the external calls made in one iteration of the
`while (1)` capture loop of `audioThread` (lines 230-262): whether
`IMP_AI_PollingFrame` returned 0, whether `IMP_AI_GetFrame` returned 0,
whether `sendAudioFrame` returned 0, whether `IMP_AI_ReleaseFrame`
returned 0, and the value of `pAudio->isTerminating` as read at the
end-of-iteration check. -/
structure IterInput where
  pollOk : Bool
  getOk : Bool
  sendOk : Bool
  releaseOk : Bool
  isTerminating : Bool
deriving DecidableEq, Repr

/-- Why the capture loop was left. -/
inductive ExitReason where
  | getFrameError : ExitReason
  | releaseError : ExitReason
  | observedTermination : ExitReason
deriving DecidableEq, Repr

/-- Result of one capture-loop iteration: go back to the poll, or leave
the loop. -/
inductive IterOutcome where
  | nextPoll : IterOutcome
  | exitLoop : ExitReason → IterOutcome
deriving DecidableEq, Repr

/-- One iteration of the capture loop (lines 230-262).  A poll failure
logs and `continue`s, which jumps straight back to the poll — the
`isTerminating` check at lines 258-261 is NOT reached on that path.  A
`GetFrame` failure breaks out of the loop; otherwise `sendAudioFrame`
runs (its result is only logged, so `sendOk` does not influence control
flow), a `ReleaseFrame` failure breaks, and finally `isTerminating` is
checked and breaks the loop when set. -/
def loopIter (it : IterInput) : IterOutcome :=
  if it.pollOk = false then IterOutcome.nextPoll
  else if it.getOk = false then IterOutcome.exitLoop ExitReason.getFrameError
  else if it.releaseOk = false then IterOutcome.exitLoop ExitReason.releaseError
  else if it.isTerminating then IterOutcome.exitLoop ExitReason.observedTermination
  else IterOutcome.nextPoll

/-- The capture loop run against a finite script of iteration inputs:
`some r` when the loop exits within the script with reason `r`, `none`
when the loop is still running after consuming the whole script. -/
def runLoop : List IterInput → Option ExitReason
  | [] => none
  | it :: rest =>
      match loopIter it with
      | IterOutcome.nextPoll => runLoop rest
      | IterOutcome.exitLoop r => some r

/-- Outcomes of the IMP device calls made by `audioThread` outside the
loop: the six configuration calls (lines 218-223) and the two disable
calls (line 264). -/
structure AudioThreadOracle where
  setPubAttrOk : Bool
  enableOk : Bool
  setChnParamOk : Bool
  enableChnOk : Bool
  setVolOk : Bool
  setGainOk : Bool
  disableChnOk : Bool
  disableOk : Bool
deriving DecidableEq, Repr

/-- Whether all six configuration calls succeed, i.e. the `else if`
disjunction at lines 218-223 is not taken. -/
def audioConfigOk (o : AudioThreadOracle) : Bool :=
  o.setPubAttrOk && o.enableOk && o.setChnParamOk && o.enableChnOk
    && o.setVolOk && o.setGainOk

/-- Teardown-relevant events of the worker thread: an attempted
`IMP_AI_DisableChn` call, an attempted `IMP_AI_Disable` call, and the
final `pAudio->isTerminated = true` store (line 271). -/
inductive ThreadEv where
  | evDisableChn : ThreadEv
  | evDisable : ThreadEv
  | evSetTerminated : ThreadEv
deriving DecidableEq, Repr

/-- The body of `audioThread` (lines 207-274) for a non-null argument, as the
sequence of teardown-relevant events it performs.  If any configuration
call fails, the loop and both disable calls are skipped and
`isTerminated` is set immediately.  Otherwise the loop runs on the
script; `none` means the loop is still running when the script ends.
After the loop exits, `IMP_AI_DisableChn` is attempted, and because of
the short-circuiting `||` at line 264, `IMP_AI_Disable` is attempted
only when `IMP_AI_DisableChn` returned 0; in every case `isTerminated`
is then set. -/
def audioThread (o : AudioThreadOracle) (script : List IterInput) :
    Option (List ThreadEv) :=
  if audioConfigOk o = false then some [ThreadEv.evSetTerminated]
  else
    match runLoop script with
    | none => none
    | some _ =>
        if o.disableChnOk then
          some [ThreadEv.evDisableChn, ThreadEv.evDisable, ThreadEv.evSetTerminated]
        else
          some [ThreadEv.evDisableChn, ThreadEv.evSetTerminated]

/-- The heap objects a fully constructed handle owns, one per
allocation made during `T31Audio_create`: the `T31Audio_t` struct, the
lock from `Lock_Init`, the `AudioTrackInfo_t` struct, the codec-private
blob from `Mkv_generateAacCodecPrivateData`, the PCM buffer and the
encoded-frame buffer. -/
inductive AllocKind where
  | handleStruct : AllocKind
  | lockRes : AllocKind
  | trackInfoStruct : AllocKind
  | codecPrivateBlob : AllocKind
  | pcmBufAlloc : AllocKind
  | frameBufAlloc : AllocKind
deriving DecidableEq, Repr

/-- All allocations made on a fully successful `T31Audio_create`. -/
def createAllocations : List AllocKind :=
  [AllocKind.handleStruct, AllocKind.lockRes, AllocKind.trackInfoStruct,
    AllocKind.codecPrivateBlob, AllocKind.pcmBufAlloc, AllocKind.frameBufAlloc]

/-- The observable steps of `T31Audio_terminate`. -/
inductive TermAction where
  | setTerminatingFlag : TermAction
  | waitTerminated : TermAction
  | joinThread : TermAction
  | free : AllocKind → TermAction
deriving DecidableEq, Repr

/-- A `T31Audio_terminate` execution: the actions performed, and
whether the call returns (`false` models the busy-wait at lines 439-442
spinning forever because nothing ever sets `isTerminated`). -/
structure TermRun where
  actions : List TermAction
  returns : Bool
deriving DecidableEq, Repr

/-- The behavior of `T31Audio_terminate` (lines 432-448).  A null handle is a no-op.
Otherwise `isTerminating` is set, then the call busy-waits (10 ms poll)
until `isTerminated` is observed — which happens only if a worker
thread sets it (`workerSetsTerminated`) — then joins the thread and
frees the handle struct.  `KVS_FREE(pAudio)` is the only free the
function performs. -/
def T31Audio_terminate (handleIsNull : Bool) (workerSetsTerminated : Bool) : TermRun :=
  if handleIsNull then ⟨[], true⟩
  else if workerSetsTerminated then
    ⟨[TermAction.setTerminatingFlag, TermAction.waitTerminated,
      TermAction.joinThread, TermAction.free AllocKind.handleStruct], true⟩
  else
    ⟨[TermAction.setTerminatingFlag, TermAction.waitTerminated], false⟩

/-- Outcomes of the fallible steps of `T31Audio_create` (lines
376-430): the handle allocation, `Lock_Init`, the two fallible parts of
`initAudioTrackInfo` (struct allocation and codec-private generation),
the three fallible parts of `initAacEncoder` (`AacEncoder_create` and
the two buffer allocations), and `pthread_create`.
(`audioConfigurationInit` cannot fail on a non-null argument.) -/
structure CreateOracle where
  mallocHandleOk : Bool
  lockInitOk : Bool
  trackInfoMallocOk : Bool
  codecPrivateOk : Bool
  aacEncoderCreateOk : Bool
  pcmBufMallocOk : Bool
  frameBufMallocOk : Bool
  threadCreateOk : Bool
deriving DecidableEq, Repr

/-- Success of every step of `T31Audio_create` after the handle
allocation. -/
def createStepsOk (o : CreateOracle) : Bool :=
  o.lockInitOk && (o.trackInfoMallocOk && o.codecPrivateOk)
    && (o.aacEncoderCreateOk && o.pcmBufMallocOk && o.frameBufMallocOk)
    && o.threadCreateOk

/-- How a `T31Audio_create` call ends for its caller. -/
inductive CreateResult where
  | nullHandle : CreateResult
  | validHandle : CreateResult
  | neverReturns : CreateResult
deriving DecidableEq, Repr

/-- The behavior of `T31Audio_create` (lines 376-430).  On any failure
(`res != ERRNO_NONE`) the code calls `T31Audio_terminate(pAudio)` and
would then return NULL.  When the handle allocation itself failed,
`pAudio` is NULL and terminate is a no-op.  On every other failure path
no worker thread is running (`pthread_create` either failed or was
never reached), so nothing ever sets `isTerminated` and the terminate
call's busy-wait decides whether create returns. -/
def T31Audio_create (o : CreateOracle) : CreateResult :=
  if o.mallocHandleOk = false then
    if (T31Audio_terminate true false).returns then CreateResult.nullHandle
    else CreateResult.neverReturns
  else if createStepsOk o then CreateResult.validHandle
  else
    if (T31Audio_terminate false false).returns then CreateResult.nullHandle
    else CreateResult.neverReturns

/-- The fields of `AudioTrackInfo_t`.  The two name fields and
`pCodecPrivate` are pointers, modeled as addresses; `pCodecPrivate` is
the address of the codec-private blob allocated by
`Mkv_generateAacCodecPrivateData` and owned by the live handle. -/
structure AudioTrackInfoStruct where
  pTrackName : Nat
  pCodecName : Nat
  uFrequency : Nat
  uChannelNumber : Nat
  pCodecPrivate : Nat
  uCodecPrivateLen : Nat
deriving DecidableEq, Repr

/-- The part of `T31Audio_t` read by `T31Audio_getAudioTrackInfoClone`. -/
structure T31AudioHandleModel where
  pAudioTrackInfo : Option AudioTrackInfoStruct
deriving DecidableEq, Repr

/-- The behavior of `T31Audio_getAudioTrackInfoClone` (lines 450-484): NULL handle or
failed lock or NULL stored track info or failed allocation yield NULL;
otherwise a fresh `AudioTrackInfo_t` is allocated and
`memcpy(pAudioTrackInfo, pAudio->pAudioTrackInfo, sizeof(AudioTrackInfo_t))`
copies every field verbatim — including the `pCodecPrivate` address,
which therefore still points to the blob owned by the live handle. -/
def T31Audio_getAudioTrackInfoClone (handle : Option T31AudioHandleModel)
    (lockOk : Bool) (mallocOk : Bool) : Option AudioTrackInfoStruct :=
  match handle with
  | none => none
  | some h =>
      if lockOk = false then none
      else
        match h.pAudioTrackInfo with
        | none => none
        | some ti => if mallocOk = false then none else some ti

/-- The modulus `2 ^ 64` is positive. -/
theorem M64_pos : 0 < M64 := by
  norm_num [M64]

/-- Full characterization of the absorb loop, by induction on the
length of the remaining input.  Starting from a valid state (fill
offset below capacity, buffer prefix of that length, timestamp a
`uint64_t` value), the loop terminates and: the final offset is the
total byte count mod capacity (with matching buffer prefix), the number
of completed blocks is the total byte count div capacity, the block
bytes followed by the retained prefix are exactly the old prefix
followed by the input, every block is capacity-sized, the `i`-th block
is stamped `ts + i * blockDurationMs` (in `uint64_t` arithmetic) and
dispatched according to the `i`-th encoder outcome, and the final
timestamp has advanced once per completed block. -/
theorem sendLoop_spec (cap sampleRate : Nat) (enc : Nat → EncOutcome) (nEnc off : Nat)
    (buf : List Nat) (ts : Nat) (rest : List Nat)
    (hoff : off < cap) (hbuf : buf.length = off) (hts : ts < M64) :
    ∃ r : LoopResult,
      sendLoop cap sampleRate enc nEnc off buf ts rest = some r ∧
      r.uPcmOffset = (off + rest.length) % cap ∧
      r.pcmBuf.length = r.uPcmOffset ∧
      r.blocks.length = (off + rest.length) / cap ∧
      (r.blocks.map BlockLog.data).flatten ++ r.pcmBuf = buf ++ rest ∧
      (∀ b ∈ r.blocks, b.data.length = cap) ∧
      (∀ i, (hi : i < r.blocks.length) →
        (r.blocks.get ⟨i, hi⟩).ts = (ts + i * blockDurationMs cap sampleRate) % M64) ∧
      (∀ i, (hi : i < r.blocks.length) →
        (r.blocks.get ⟨i, hi⟩).sub =
          processBlock (enc (nEnc + i)) ((r.blocks.get ⟨i, hi⟩).ts)) ∧
      r.uPcmTimestamp = (ts + r.blocks.length * blockDurationMs cap sampleRate) % M64 := by
  rw [sendLoop]
  by_cases hr : rest.length = 0
  · have hrest : rest = [] := List.eq_nil_of_length_eq_zero hr
    refine ⟨⟨off, buf, ts, []⟩, ?_⟩
    simp only [hr, if_pos rfl, hrest]
    refine ⟨rfl, ?_, hbuf.trans ?_, ?_, by simp, by simp, ?_, ?_, ?_⟩
    · simp [Nat.mod_eq_of_lt hoff]
    · simp [Nat.mod_eq_of_lt hoff]
    · simp [Nat.div_eq_of_lt hoff]
    · intro i hi; simp at hi
    · intro i hi; simp at hi
    · simp [Nat.mod_eq_of_lt hts]
  · by_cases hp : rest.length < cap - off
    · refine ⟨⟨off + rest.length, buf ++ rest, ts, []⟩, ?_⟩
      have hlt : off + rest.length < cap := by omega
      simp only [hr, if_neg hr, if_pos hp]
      refine ⟨rfl, ?_, ?_, ?_, by simp, by simp, ?_, ?_, ?_⟩
      · simp [Nat.mod_eq_of_lt hlt]
      · simp [Nat.mod_eq_of_lt hlt, hbuf]
      · simp [Nat.div_eq_of_lt hlt]
      · intro i hi; simp at hi
      · intro i hi; simp at hi
      · simp [Nat.mod_eq_of_lt hts]
    · have hk0 : cap - off ≠ 0 := by omega
      have hkle : cap - off ≤ rest.length := by omega
      have hts2 : (ts + blockDurationMs cap sampleRate) % M64 < M64 :=
        Nat.mod_lt _ M64_pos
      obtain ⟨r', hr', hoff', hbuf', hcnt', hjoin', hlen', hts', hsub', hfin'⟩ :=
        sendLoop_spec cap sampleRate enc (nEnc + 1) 0 []
          ((ts + blockDurationMs cap sampleRate) % M64) (rest.drop (cap - off))
          (by omega) rfl hts2
      rw [if_neg hr, if_neg hp, if_neg hk0, hr']
      have hkey : off + rest.length = (rest.drop (cap - off)).length + cap := by
        simp only [List.length_drop]; omega
      refine ⟨_, rfl, ?_, ?_, ?_, ?_, ?_, ?_, ?_, ?_⟩
      · dsimp only
        rw [hoff', hkey, Nat.add_mod_right, Nat.zero_add]
      · dsimp only
        rw [hbuf']
      · dsimp only [List.length_cons]
        rw [hcnt', hkey, Nat.add_div_right _ (show 0 < cap by omega), Nat.zero_add]
      · dsimp only
        simp only [List.map_cons, hjoin']
        rw [List.flatten_cons, List.append_assoc, hjoin', List.nil_append,
          List.append_assoc, List.take_append_drop]
      · intro b hb
        dsimp only at hb
        rcases List.mem_cons.mp hb with hb | hb
        · subst hb
          simp only [List.length_append, hbuf, List.length_take]
          omega
        · exact hlen' b hb
      · intro i hi
        dsimp only at hi ⊢
        cases i with
        | zero =>
            simp only [List.get, Nat.zero_mul, Nat.add_zero]
            rw [Nat.mod_eq_of_lt hts]
        | succ j =>
            have hj : j < r'.blocks.length := by
              simp only [List.length_cons] at hi; omega
            have hjj := hts' j hj
            simp only [List.get]
            rw [hjj, Nat.mod_add_mod]
            congr 1
            ring
      · intro i hi
        dsimp only at hi ⊢
        cases i with
        | zero =>
            simp only [List.get, Nat.add_zero]
        | succ j =>
            have hj : j < r'.blocks.length := by
              simp only [List.length_cons] at hi; omega
            have hjj := hsub' j hj
            simp only [List.get]
            rw [hjj]
            congr 2
            omega
      · dsimp only [List.length_cons]
        rw [hfin', Nat.mod_add_mod]
        congr 1
        ring
termination_by rest.length
decreasing_by
  simp only [List.length_drop]
  omega

/-- Splitting a division at a partial quotient:
`n / c + (n % c + m) / c = (n + m) / c`. -/
theorem div_add_mod_div (n m c : Nat) (hc : 0 < c) :
    n / c + (n % c + m) / c = (n + m) / c := by
  conv_rhs => rw [← Nat.div_add_mod n c]
  rw [Nat.add_assoc, Nat.mul_add_div hc]

/-- Characterization of a whole run of `sendAudioFrame` calls: the
final offset is the total number of absorbed bytes mod capacity, the
number of completed blocks is the total div capacity, no byte is lost,
duplicated or reordered, and every completed block is capacity-sized. -/
theorem runFrames_spec (cap sampleRate : Nat) (enc : Nat → EncOutcome)
    (st : AudioState) (nEnc : Nat) (frames : List (Nat × List Nat))
    (hoff : st.uPcmOffset < cap) (hbuf : st.pcmBuf.length = st.uPcmOffset)
    (hts : st.uPcmTimestamp < M64) (hnow : ∀ p ∈ frames, p.1 < M64) :
    ∃ st2 blks,
      runFrames cap sampleRate enc st nEnc frames = some (st2, blks) ∧
      st2.uPcmOffset = (st.uPcmOffset + (frames.map (fun p => p.2.length)).sum) % cap ∧
      st2.pcmBuf.length = st2.uPcmOffset ∧
      blks.length = (st.uPcmOffset + (frames.map (fun p => p.2.length)).sum) / cap ∧
      (blks.map BlockLog.data).flatten ++ st2.pcmBuf
        = st.pcmBuf ++ (frames.map Prod.snd).flatten ∧
      (∀ b ∈ blks, b.data.length = cap) ∧
      st2.uPcmTimestamp < M64 := by
  induction frames generalizing st nEnc with
  | nil =>
      refine ⟨st, [], ?_, ?_, hbuf, ?_, by simp, by simp, hts⟩
      · simp [runFrames]
      · simp [Nat.mod_eq_of_lt hoff]
      · simp [Nat.div_eq_of_lt hoff]
  | cons p rest ih =>
      obtain ⟨now, f⟩ := p
      have hnowf : now < M64 := hnow (now, f) (by simp)
      have hseed : (if st.uPcmOffset = 0 then now else st.uPcmTimestamp) < M64 := by
        by_cases h0 : st.uPcmOffset = 0 <;> simp [h0, hnowf, hts]
      obtain ⟨r, hr, hroff, hrbuf, hrcnt, hrjoin, hrlen, _, _, hrts⟩ :=
        sendLoop_spec cap sampleRate enc nEnc st.uPcmOffset st.pcmBuf
          (if st.uPcmOffset = 0 then now else st.uPcmTimestamp) f hoff hbuf hseed
      have hcap : 0 < cap := Nat.lt_of_le_of_lt (Nat.zero_le _) hoff
      have hroff2 : r.uPcmOffset < cap := by
        rw [hroff]; exact Nat.mod_lt _ hcap
      have hrts2 : r.uPcmTimestamp < M64 := by
        rw [hrts]; exact Nat.mod_lt _ M64_pos
      obtain ⟨st2, blks, h2, hoff2, hbuf2, hcnt2, hjoin2, hlen2, hts2⟩ :=
        ih ⟨r.uPcmOffset, r.pcmBuf, r.uPcmTimestamp⟩ (nEnc + r.blocks.length)
          hroff2 hrbuf hrts2 (fun q hq => hnow q (by simp [hq]))
      refine ⟨st2, r.blocks ++ blks, ?_, ?_, hbuf2, ?_, ?_, ?_, hts2⟩
      · simp only [runFrames, sendAudioFrame, hr, h2]
      · rw [hoff2]
        dsimp only
        rw [hroff, Nat.mod_add_mod, List.map_cons, List.sum_cons]
        dsimp only
        congr 1
        omega
      · rw [List.length_append, hrcnt, hcnt2]
        dsimp only
        rw [hroff, List.map_cons, List.sum_cons]
        rw [div_add_mod_div _ _ _ hcap]
        dsimp only
        congr 1
        omega
      · rw [List.map_append, List.flatten_append, List.append_assoc, hjoin2]
        dsimp only
        rw [← List.append_assoc, hrjoin, List.map_cons, List.flatten_cons,
          List.append_assoc]
      · intro b hb
        rcases List.mem_append.mp hb with hb | hb
        · exact hrlen b hb
        · exact hlen2 b hb

/-- C1: over any sequence of device frames absorbed by `sendAudioFrame`
from a fresh pipeline state, the concatenation of the bytes of all
blocks passed to the encoder, followed by the bytes currently in the
PCM buffer below the fill offset, equals the concatenation of all input
frame bytes, byte for byte, regardless of how the input is partitioned
into frames. -/
theorem C1_no_loss_no_duplication (cap sampleRate : Nat) (enc : Nat → EncOutcome)
    (ts0 : Nat) (frames : List (Nat × List Nat))
    (hcap : 0 < cap) (hts : ts0 < M64) (hnow : ∀ p ∈ frames, p.1 < M64) :
    ∃ st2 blks,
      runFrames cap sampleRate enc ⟨0, [], ts0⟩ 0 frames = some (st2, blks) ∧
      (blks.map BlockLog.data).flatten ++ st2.pcmBuf = (frames.map Prod.snd).flatten ∧
      st2.pcmBuf.length = st2.uPcmOffset := by
  obtain ⟨st2, blks, h, _, hb, _, hj, _, _⟩ :=
    runFrames_spec cap sampleRate enc ⟨0, [], ts0⟩ 0 frames hcap rfl hts hnow
  exact ⟨st2, blks, h, by simpa using hj, hb⟩

/-- Witness for C1 at a concrete input. -/
theorem C1_witness :
    (0 < 2 ∧ (5 : Nat) < M64) ∧
    ∃ st2 blks,
      runFrames 2 8000 (fun _ => EncOutcome.encFail) ⟨0, [], 5⟩ 0
          [(7, [1, 2, 3])] = some (st2, blks) ∧
      (blks.map BlockLog.data).flatten ++ st2.pcmBuf
        = ([((7 : Nat), [(1 : Nat), 2, 3])].map Prod.snd).flatten ∧
      st2.pcmBuf.length = st2.uPcmOffset :=
  ⟨⟨by decide, by decide⟩,
    C1_no_loss_no_duplication 2 8000 (fun _ => EncOutcome.encFail) 5
      [(7, [1, 2, 3])] (by decide) (by decide) (by decide)⟩

/-- C2: frame-length sequences summing to `k * capacity` produce exactly
`k` encoder invocations and leave the fill offset at `0`; a single frame
of 2.5 times the (even) capacity yields 2 complete blocks and a retained
offset of half the capacity; and with capacity 1280 the frame-length
sequence 700, 900, 2500 yields exactly 3 encoder invocations on
contiguous in-order 1280-byte blocks and a final offset of 260. -/
theorem C2_block_counts :
    (∀ (cap sampleRate k ts0 : Nat) (enc : Nat → EncOutcome)
        (frames : List (Nat × List Nat)),
      0 < cap → 1 ≤ k → ts0 < M64 → (∀ p ∈ frames, p.1 < M64) →
      (frames.map (fun p => p.2.length)).sum = k * cap →
      ∃ st2 blks,
        runFrames cap sampleRate enc ⟨0, [], ts0⟩ 0 frames = some (st2, blks) ∧
        blks.length = k ∧ st2.uPcmOffset = 0) ∧
    (∀ (cap sampleRate now ts0 : Nat) (enc : Nat → EncOutcome) (f : List Nat),
      0 < cap → ts0 < M64 → now < M64 → 2 ∣ cap → f.length = 2 * cap + cap / 2 →
      ∃ r, sendAudioFrame cap sampleRate enc 0 now ⟨0, [], ts0⟩ f = some r ∧
        r.blocks.length = 2 ∧ r.uPcmOffset = cap / 2) ∧
    (∀ (sampleRate ts0 n1 n2 n3 : Nat) (enc : Nat → EncOutcome)
        (f1 f2 f3 : List Nat),
      ts0 < M64 → n1 < M64 → n2 < M64 → n3 < M64 →
      f1.length = 700 → f2.length = 900 → f3.length = 2500 →
      ∃ st2 blks,
        runFrames 1280 sampleRate enc ⟨0, [], ts0⟩ 0 [(n1, f1), (n2, f2), (n3, f3)]
          = some (st2, blks) ∧
        blks.length = 3 ∧ st2.uPcmOffset = 260 ∧
        (∀ b ∈ blks, b.data.length = 1280) ∧
        (blks.map BlockLog.data).flatten ++ st2.pcmBuf = f1 ++ (f2 ++ f3)) := by
  refine ⟨?_, ?_, ?_⟩
  · intro cap sampleRate k ts0 enc frames hcap hk hts hnow hsum
    obtain ⟨st2, blks, h, ho, _, hc, _, _, _⟩ :=
      runFrames_spec cap sampleRate enc ⟨0, [], ts0⟩ 0 frames hcap rfl hts hnow
    refine ⟨st2, blks, h, ?_, ?_⟩
    · rw [hc]
      dsimp only
      rw [hsum, Nat.zero_add, Nat.mul_div_cancel _ hcap]
    · rw [ho]
      dsimp only
      rw [hsum, Nat.zero_add, Nat.mul_mod_left]
  · intro cap sampleRate now ts0 enc f hcap hts hnow hdvd hf
    have hc2 : cap / 2 < cap := Nat.div_lt_self hcap (by norm_num)
    obtain ⟨r, hr, ho, _, hc, _, _, _, _, _⟩ :=
      sendLoop_spec cap sampleRate enc 0 0 [] now f hcap rfl hnow
    refine ⟨r, hr, ?_, ?_⟩
    · rw [hc, Nat.zero_add, hf, Nat.add_comm, Nat.add_mul_div_right _ _ hcap,
        Nat.div_eq_of_lt hc2, Nat.zero_add]
    · rw [ho, Nat.zero_add, hf, Nat.add_comm, Nat.add_mul_mod_self_right,
        Nat.mod_eq_of_lt hc2]
  · intro sampleRate ts0 n1 n2 n3 enc f1 f2 f3 hts h1 h2 h3 hf1 hf2 hf3
    have hnow : ∀ p ∈ [(n1, f1), (n2, f2), (n3, f3)], p.1 < M64 := by
      intro p hp
      simp only [List.mem_cons, List.not_mem_nil, or_false] at hp
      rcases hp with rfl | rfl | rfl <;> assumption
    obtain ⟨st2, blks, h, ho, _, hc, hj, hl, _⟩ :=
      runFrames_spec 1280 sampleRate enc ⟨0, [], ts0⟩ 0
        [(n1, f1), (n2, f2), (n3, f3)] (by norm_num) rfl hts hnow
    have hsum : ([(n1, f1), (n2, f2), (n3, f3)].map (fun p => p.2.length)).sum
        = 4100 := by
      simp [hf1, hf2, hf3]
    refine ⟨st2, blks, h, ?_, ?_, hl, ?_⟩
    · rw [hc, hsum]
      dsimp only
    · rw [ho, hsum]
      dsimp only
    · simpa using hj

/-- Witness for C2 at concrete inputs. -/
theorem C2_witness :
    (∃ st2 blks,
      runFrames 2 8000 (fun _ => EncOutcome.encFail) ⟨0, [], 5⟩ 0
          [(7, [1, 2])] = some (st2, blks) ∧
      blks.length = 1 ∧ st2.uPcmOffset = 0) ∧
    (∃ r, sendAudioFrame 2 8000 (fun _ => EncOutcome.encFail) 0 9 ⟨0, [], 5⟩
        [1, 2, 3, 4, 5] = some r ∧
      r.blocks.length = 2 ∧ r.uPcmOffset = 2 / 2) ∧
    (∃ st2 blks,
      runFrames 1280 16000 (fun _ => EncOutcome.encFail) ⟨0, [], 5⟩ 0
          [(7, List.replicate 700 0), (8, List.replicate 900 0),
            (9, List.replicate 2500 0)] = some (st2, blks) ∧
      blks.length = 3 ∧ st2.uPcmOffset = 260 ∧
      (∀ b ∈ blks, b.data.length = 1280) ∧
      (blks.map BlockLog.data).flatten ++ st2.pcmBuf
        = List.replicate 700 0 ++ (List.replicate 900 0 ++ List.replicate 2500 0)) :=
  ⟨C2_block_counts.1 2 8000 1 5 (fun _ => EncOutcome.encFail) [(7, [1, 2])]
      (by decide) (by decide) (by decide) (by decide) (by decide),
   C2_block_counts.2.1 2 8000 9 5 (fun _ => EncOutcome.encFail) [1, 2, 3, 4, 5]
      (by decide) (by decide) (by decide) (by decide) (by decide),
   C2_block_counts.2.2 16000 5 7 8 9 (fun _ => EncOutcome.encFail)
      (List.replicate 700 0) (List.replicate 900 0) (List.replicate 2500 0)
      (by decide) (by decide) (by decide) (by decide)
      (by rw [List.length_replicate]) (by rw [List.length_replicate])
      (by rw [List.length_replicate])⟩

/-- A `KvsApp_addFrame` call produced for a block always carries the
`uPcmTimestamp` value that was current when the block completed. -/
theorem processBlock_timestamp (o : EncOutcome) (ts : Nat) (s : Submission)
    (h : processBlock o ts = some s) : s.timestamp = ts := by
  cases o with
  | encFail => exact absurd h (by simp [processBlock])
  | encOk out allocOk =>
      simp only [processBlock] at h
      split at h
      · exact Option.noConfusion h
      · rw [Option.some_inj] at h
        subst h
        rfl

/-- C3: the running timestamp is re-seeded from the wall clock exactly
when a frame arrives while `uPcmOffset = 0` (the previous timestamp is
then irrelevant; when the offset is nonzero the wall clock is
irrelevant); every block submission carries the `uPcmTimestamp` value
current when that block completed; block `i` of a call is stamped
`seed + i * blockDurationMs` in `uint64_t` arithmetic, so successive
block timestamps differ by exactly
`(uPcmBufSize * 1000) / (sampleRate * 2)` (modulo `2 ^ 64`; exactly as
naturals absent wraparound), and after every completed block the
running timestamp has advanced by exactly that amount. -/
theorem C3_timestamp_discipline :
    (∀ (cap sampleRate nEnc now x y : Nat) (enc : Nat → EncOutcome)
        (buf f : List Nat),
      sendAudioFrame cap sampleRate enc nEnc now ⟨0, buf, x⟩ f
        = sendAudioFrame cap sampleRate enc nEnc now ⟨0, buf, y⟩ f) ∧
    (∀ (cap sampleRate nEnc now1 now2 off ts : Nat) (enc : Nat → EncOutcome)
        (buf f : List Nat), off ≠ 0 →
      sendAudioFrame cap sampleRate enc nEnc now1 ⟨off, buf, ts⟩ f
        = sendAudioFrame cap sampleRate enc nEnc now2 ⟨off, buf, ts⟩ f) ∧
    (∀ (cap sampleRate nEnc now : Nat) (enc : Nat → EncOutcome)
        (st : AudioState) (f : List Nat),
      st.uPcmOffset < cap → st.pcmBuf.length = st.uPcmOffset →
      st.uPcmTimestamp < M64 → now < M64 →
      ∃ r, sendAudioFrame cap sampleRate enc nEnc now st f = some r ∧
        (∀ i, (hi : i < r.blocks.length) →
          (r.blocks.get ⟨i, hi⟩).ts =
            ((if st.uPcmOffset = 0 then now else st.uPcmTimestamp)
              + i * blockDurationMs cap sampleRate) % M64) ∧
        (∀ i, (hi : i < r.blocks.length) → ∀ s,
          (r.blocks.get ⟨i, hi⟩).sub = some s →
            s.timestamp = (r.blocks.get ⟨i, hi⟩).ts) ∧
        (∀ i, (hi1 : i + 1 < r.blocks.length) → (hi0 : i < r.blocks.length) →
          (r.blocks.get ⟨i + 1, hi1⟩).ts
            = ((r.blocks.get ⟨i, hi0⟩).ts + blockDurationMs cap sampleRate) % M64) ∧
        (∀ i, (hi1 : i + 1 < r.blocks.length) → (hi0 : i < r.blocks.length) →
          (r.blocks.get ⟨i, hi0⟩).ts + blockDurationMs cap sampleRate < M64 →
          (r.blocks.get ⟨i + 1, hi1⟩).ts
            = (r.blocks.get ⟨i, hi0⟩).ts + blockDurationMs cap sampleRate) ∧
        r.uPcmTimestamp =
          ((if st.uPcmOffset = 0 then now else st.uPcmTimestamp)
            + r.blocks.length * blockDurationMs cap sampleRate) % M64) := by
  refine ⟨?_, ?_, ?_⟩
  · intro cap sampleRate nEnc now x y enc buf f
    simp [sendAudioFrame]
  · intro cap sampleRate nEnc now1 now2 off ts enc buf f h
    simp [sendAudioFrame, h]
  · intro cap sampleRate nEnc now enc st f h1 h2 h3 h4
    have hseed : (if st.uPcmOffset = 0 then now else st.uPcmTimestamp) < M64 := by
      by_cases h0 : st.uPcmOffset = 0 <;> simp [h0, h3, h4]
    obtain ⟨r, hr, _, _, _, _, _, hts', hsub', hfin'⟩ :=
      sendLoop_spec cap sampleRate enc nEnc st.uPcmOffset st.pcmBuf
        (if st.uPcmOffset = 0 then now else st.uPcmTimestamp) f h1 h2 hseed
    have hstep : ∀ i, ((if st.uPcmOffset = 0 then now else st.uPcmTimestamp)
        + (i + 1) * blockDurationMs cap sampleRate) % M64
        = (((if st.uPcmOffset = 0 then now else st.uPcmTimestamp)
            + i * blockDurationMs cap sampleRate) % M64
          + blockDurationMs cap sampleRate) % M64 := by
      intro i
      rw [Nat.mod_add_mod]
      congr 1
      ring
    refine ⟨r, hr, hts', ?_, ?_, ?_, hfin'⟩
    · intro i hi s hs
      rw [hsub' i hi] at hs
      exact processBlock_timestamp _ _ _ hs
    · intro i hi1 hi0
      rw [hts' _ hi1, hts' _ hi0, ← hstep]
    · intro i hi1 hi0 hlt
      rw [hts' _ hi0] at hlt
      rw [hts' _ hi1, hts' _ hi0, hstep, Nat.mod_eq_of_lt hlt]

/-- Witness for C3 at concrete inputs. -/
theorem C3_witness :
    (sendAudioFrame 2 8000 (fun _ => EncOutcome.encFail) 0 9 ⟨0, [], 3⟩ [1, 2]
      = sendAudioFrame 2 8000 (fun _ => EncOutcome.encFail) 0 9 ⟨0, [], 4⟩ [1, 2]) ∧
    ((1 : Nat) ≠ 0 ∧
      sendAudioFrame 2 8000 (fun _ => EncOutcome.encFail) 0 9 ⟨1, [5], 3⟩ [1, 2]
        = sendAudioFrame 2 8000 (fun _ => EncOutcome.encFail) 0 8 ⟨1, [5], 3⟩ [1, 2]) ∧
    (∃ r, sendAudioFrame 2 8000 (fun _ => EncOutcome.encFail) 0 9 ⟨0, [], 5⟩
        [1, 2, 3, 4, 5] = some r ∧
      (∀ i, (hi : i < r.blocks.length) →
        (r.blocks.get ⟨i, hi⟩).ts = (9 + i * blockDurationMs 2 8000) % M64) ∧
      (∀ i, (hi : i < r.blocks.length) → ∀ s,
        (r.blocks.get ⟨i, hi⟩).sub = some s →
          s.timestamp = (r.blocks.get ⟨i, hi⟩).ts) ∧
      (∀ i, (hi1 : i + 1 < r.blocks.length) → (hi0 : i < r.blocks.length) →
        (r.blocks.get ⟨i + 1, hi1⟩).ts
          = ((r.blocks.get ⟨i, hi0⟩).ts + blockDurationMs 2 8000) % M64) ∧
      (∀ i, (hi1 : i + 1 < r.blocks.length) → (hi0 : i < r.blocks.length) →
        (r.blocks.get ⟨i, hi0⟩).ts + blockDurationMs 2 8000 < M64 →
        (r.blocks.get ⟨i + 1, hi1⟩).ts
          = (r.blocks.get ⟨i, hi0⟩).ts + blockDurationMs 2 8000) ∧
      r.uPcmTimestamp = (9 + r.blocks.length * blockDurationMs 2 8000) % M64) :=
  ⟨C3_timestamp_discipline.1 2 8000 0 9 3 4 (fun _ => EncOutcome.encFail) [] [1, 2],
   ⟨by decide,
    C3_timestamp_discipline.2.1 2 8000 0 9 8 1 3 (fun _ => EncOutcome.encFail)
      [5] [1, 2] (by decide)⟩,
   C3_timestamp_discipline.2.2 2 8000 0 9 (fun _ => EncOutcome.encFail)
     ⟨0, [], 5⟩ [1, 2, 3, 4, 5] (by decide) (by decide) (by decide) (by decide)⟩

/-- Branch equation: empty remaining input ends the loop. -/
theorem sendLoop_eq_nil (cap sampleRate : Nat) (enc : Nat → EncOutcome)
    (nEnc off : Nat) (buf : List Nat) (ts : Nat) (rest : List Nat)
    (h : rest.length = 0) :
    sendLoop cap sampleRate enc nEnc off buf ts rest = some ⟨off, buf, ts, []⟩ := by
  rw [sendLoop, if_pos h]

/-- Branch equation: remaining capacity exceeds the remaining input. -/
theorem sendLoop_eq_absorb (cap sampleRate : Nat) (enc : Nat → EncOutcome)
    (nEnc off : Nat) (buf : List Nat) (ts : Nat) (rest : List Nat)
    (h1 : ¬rest.length = 0) (h2 : rest.length < cap - off) :
    sendLoop cap sampleRate enc nEnc off buf ts rest
      = some ⟨off + rest.length, buf ++ rest, ts, []⟩ := by
  rw [sendLoop, if_neg h1, if_pos h2]

/-- Branch equation: no remaining capacity, the C loop spins forever. -/
theorem sendLoop_eq_stuck (cap sampleRate : Nat) (enc : Nat → EncOutcome)
    (nEnc off : Nat) (buf : List Nat) (ts : Nat) (rest : List Nat)
    (h1 : ¬rest.length = 0) (h2 : ¬rest.length < cap - off) (h3 : cap - off = 0) :
    sendLoop cap sampleRate enc nEnc off buf ts rest = none := by
  rw [sendLoop, if_neg h1, if_neg h2, if_pos h3]

/-- Branch equation: a block completes and the loop continues. -/
theorem sendLoop_eq_step (cap sampleRate : Nat) (enc : Nat → EncOutcome)
    (nEnc off : Nat) (buf : List Nat) (ts : Nat) (rest : List Nat)
    (h1 : ¬rest.length = 0) (h2 : ¬rest.length < cap - off) (h3 : ¬cap - off = 0) :
    sendLoop cap sampleRate enc nEnc off buf ts rest
      = match sendLoop cap sampleRate enc (nEnc + 1) 0 []
            ((ts + blockDurationMs cap sampleRate) % M64) (rest.drop (cap - off)) with
        | none => none
        | some r =>
            some ⟨r.uPcmOffset, r.pcmBuf, r.uPcmTimestamp,
              ⟨buf ++ rest.take (cap - off), ts, processBlock (enc nEnc) ts⟩ :: r.blocks⟩ := by
  rw [sendLoop, if_neg h1, if_neg h2, if_neg h3]

/-- The accumulator state, timestamp state, block contents and block
timestamps of the absorb loop do not depend on the encoder or
allocator outcomes (nor on the encoder-call index). -/
theorem sendLoop_enc_indep (cap sampleRate : Nat) (enc1 enc2 : Nat → EncOutcome)
    (nEnc1 nEnc2 off : Nat) (buf : List Nat) (ts : Nat) (rest : List Nat) :
    (sendLoop cap sampleRate enc1 nEnc1 off buf ts rest).map stripSubs
      = (sendLoop cap sampleRate enc2 nEnc2 off buf ts rest).map stripSubs := by
  by_cases h1 : rest.length = 0
  · rw [sendLoop_eq_nil _ _ _ _ _ _ _ _ h1, sendLoop_eq_nil _ _ _ _ _ _ _ _ h1]
  · by_cases h2 : rest.length < cap - off
    · rw [sendLoop_eq_absorb _ _ _ _ _ _ _ _ h1 h2,
        sendLoop_eq_absorb _ _ _ _ _ _ _ _ h1 h2]
    · by_cases h3 : cap - off = 0
      · rw [sendLoop_eq_stuck _ _ _ _ _ _ _ _ h1 h2 h3,
          sendLoop_eq_stuck _ _ _ _ _ _ _ _ h1 h2 h3]
      · rw [sendLoop_eq_step _ _ _ _ _ _ _ _ h1 h2 h3,
          sendLoop_eq_step _ _ _ _ _ _ _ _ h1 h2 h3]
        have ih := sendLoop_enc_indep cap sampleRate enc1 enc2 (nEnc1 + 1) (nEnc2 + 1)
          0 [] ((ts + blockDurationMs cap sampleRate) % M64) (rest.drop (cap - off))
        cases hA : sendLoop cap sampleRate enc1 (nEnc1 + 1) 0 []
            ((ts + blockDurationMs cap sampleRate) % M64) (rest.drop (cap - off)) with
        | none =>
            cases hB : sendLoop cap sampleRate enc2 (nEnc2 + 1) 0 []
                ((ts + blockDurationMs cap sampleRate) % M64) (rest.drop (cap - off)) with
            | none => rfl
            | some rB =>
                rw [hA, hB] at ih
                exact absurd ih (by simp)
        | some rA =>
            cases hB : sendLoop cap sampleRate enc2 (nEnc2 + 1) 0 []
                ((ts + blockDurationMs cap sampleRate) % M64) (rest.drop (cap - off)) with
            | none =>
                rw [hA, hB] at ih
                exact absurd ih (by simp)
            | some rB =>
                rw [hA, hB] at ih
                simp only [Option.map_some', Option.some_inj, stripSubs,
                  Prod.mk.injEq] at ih ⊢
                refine ⟨ih.1, ih.2.1, ih.2.2.1, ?_⟩
                simp only [List.map_cons, ih.2.2.2, List.cons.injEq]
termination_by rest.length
decreasing_by
  simp only [List.length_drop]
  omega

/-- C10: for every device frame processed by `sendAudioFrame` with
non-null arguments, the resulting accumulator state (`uPcmOffset`,
buffer contents) and timestamp state (`uPcmTimestamp`) — and even the
data and timestamps of all completed blocks — are identical whatever
the per-block encoder/allocation outcomes are: two runs differing only
in those outcomes agree on everything except the dispatched
submissions, so dropped blocks never shift the timestamps or alignment
of later blocks. -/
theorem C10_outcome_noninterference (cap sampleRate : Nat)
    (enc1 enc2 : Nat → EncOutcome) (nEnc now : Nat) (st : AudioState)
    (f : List Nat) :
    (sendAudioFrame cap sampleRate enc1 nEnc now st f).map stripSubs
      = (sendAudioFrame cap sampleRate enc2 nEnc now st f).map stripSubs :=
  sendLoop_enc_indep cap sampleRate enc1 enc2 nEnc nEnc st.uPcmOffset st.pcmBuf
    (if st.uPcmOffset = 0 then now else st.uPcmTimestamp) f

/-- C8: for every completed block, encoder success with output length
greater than 0 and successful allocation produces exactly one
submission, carrying a copy of exactly the output (both size arguments
equal to the output length), tagged with the audio track type and the
block's timestamp; encoder failure, zero-length output, or allocation
failure drops the block with no submission; and the per-block outcome
is never fatal — `sendAudioFrame` still completes and processes every
remaining block, and the worker loop's control flow ignores
`sendAudioFrame`'s result. -/
theorem C8_encode_dispatch_policy :
    (∀ (out : List Nat) (ts : Nat), out.length ≠ 0 →
      processBlock (EncOutcome.encOk out true) ts
        = some ⟨out, out.length, out.length, ts, TrackType.audioTrack⟩) ∧
    (∀ ts : Nat, processBlock EncOutcome.encFail ts = none) ∧
    (∀ (out : List Nat) (ts : Nat),
      processBlock (EncOutcome.encOk out false) ts = none) ∧
    (∀ (a : Bool) (ts : Nat), processBlock (EncOutcome.encOk [] a) ts = none) ∧
    (∀ (cap sampleRate nEnc now : Nat) (enc : Nat → EncOutcome)
        (st : AudioState) (f : List Nat),
      st.uPcmOffset < cap → st.pcmBuf.length = st.uPcmOffset →
      st.uPcmTimestamp < M64 → now < M64 →
      ∃ r, sendAudioFrame cap sampleRate enc nEnc now st f = some r ∧
        r.blocks.length = (st.uPcmOffset + f.length) / cap ∧
        (∀ i, (hi : i < r.blocks.length) →
          (r.blocks.get ⟨i, hi⟩).sub
            = processBlock (enc (nEnc + i)) ((r.blocks.get ⟨i, hi⟩).ts))) ∧
    (∀ p g s1 s2 rl t : Bool,
      loopIter ⟨p, g, s1, rl, t⟩ = loopIter ⟨p, g, s2, rl, t⟩) := by
  refine ⟨?_, ?_, ?_, ?_, ?_, ?_⟩
  · intro out ts h
    simp [processBlock, h]
  · intro ts
    simp [processBlock]
  · intro out ts
    simp [processBlock]
  · intro a ts
    simp [processBlock]
  · intro cap sampleRate nEnc now enc st f h1 h2 h3 h4
    have hseed : (if st.uPcmOffset = 0 then now else st.uPcmTimestamp) < M64 := by
      by_cases h0 : st.uPcmOffset = 0 <;> simp [h0, h3, h4]
    obtain ⟨r, hr, _, _, hcnt, _, _, _, hsub', _⟩ :=
      sendLoop_spec cap sampleRate enc nEnc st.uPcmOffset st.pcmBuf
        (if st.uPcmOffset = 0 then now else st.uPcmTimestamp) f h1 h2 hseed
    exact ⟨r, hr, hcnt, hsub'⟩
  · intro p g s1 s2 rl t
    rfl

/-- Witness for C8 at concrete inputs: the second conjunct uses an
encoder oracle that fails on the first block and succeeds on the
second, showing the pipeline keeps processing after a dropped block. -/
theorem C8_witness :
    ((([3] : List Nat).length ≠ 0) ∧
      processBlock (EncOutcome.encOk [3] true) 7
        = some ⟨[3], [3].length, [3].length, 7, TrackType.audioTrack⟩) ∧
    (∃ r, sendAudioFrame 2 8000
        (fun n => if n = 0 then EncOutcome.encFail else EncOutcome.encOk [9] true)
        0 11 ⟨0, [], 5⟩ [1, 2, 3, 4] = some r ∧
      r.blocks.length = 2 ∧
      (∀ i, (hi : i < r.blocks.length) →
        (r.blocks.get ⟨i, hi⟩).sub
          = processBlock
              ((fun n => if n = 0 then EncOutcome.encFail
                else EncOutcome.encOk [9] true) (0 + i))
              ((r.blocks.get ⟨i, hi⟩).ts))) :=
  ⟨⟨by decide, C8_encode_dispatch_policy.1 [3] 7 (by decide)⟩,
    C8_encode_dispatch_policy.2.2.2.2.1 2 8000 0 11
      (fun n => if n = 0 then EncOutcome.encFail else EncOutcome.encOk [9] true)
      ⟨0, [], 5⟩ [1, 2, 3, 4] (by decide) (by decide) (by decide) (by decide)⟩

/-- C4 counterexample: a poll-timeout iteration with the termination
flag set still goes straight back to the next poll — the `continue` at
line 235 skips the `isTerminating` check at lines 258-261 — and a
worker receiving only poll timeouts never leaves the loop even though
termination is requested in every iteration. -/
theorem C4_counterexample :
    loopIter ⟨false, true, true, true, true⟩ = IterOutcome.nextPoll ∧
    runLoop (List.replicate 3 ⟨false, true, true, true, true⟩) = none := by
  decide

/-- C4 amended: after an iteration whose poll succeeded (in particular
after a fully processed frame), a pending termination request makes the
worker leave the loop before the next poll; but a poll-timeout
iteration `continue`s directly to the next poll without checking
`isTerminating`, so a worker receiving only poll timeouts never
observes a pending termination request, for arbitrarily many
iterations. -/
theorem C4_timeout_skips_termination_check :
    (∀ g s rl : Bool, loopIter ⟨true, g, s, rl, true⟩ ≠ IterOutcome.nextPoll) ∧
    (∀ s : Bool, loopIter ⟨true, true, s, true, true⟩
      = IterOutcome.exitLoop ExitReason.observedTermination) ∧
    (∀ g s rl t : Bool, loopIter ⟨false, g, s, rl, t⟩ = IterOutcome.nextPoll) ∧
    (∀ (n : Nat) (g s rl : Bool),
      runLoop (List.replicate n ⟨false, g, s, rl, true⟩) = none) := by
  refine ⟨?_, ?_, ?_, ?_⟩
  · intro g s rl
    cases g <;> cases rl <;> simp [loopIter]
  · intro s
    rfl
  · intro g s rl t
    rfl
  · intro n g s rl
    induction n with
    | zero => rfl
    | succ m ih => simpa [List.replicate_succ, runLoop, loopIter] using ih

/-- C5 counterexample: with the handle allocation succeeding and
`Lock_Init` failing, `T31Audio_create` applies terminate to the
partially built handle; no worker thread was ever started, so the
busy-wait for `isTerminated` never completes and the call never
returns — in particular it does not complete with NULL. -/
theorem C5_counterexample :
    T31Audio_create ⟨true, false, true, true, true, true, true, true⟩
      = CreateResult.neverReturns ∧
    T31Audio_create ⟨true, false, true, true, true, true, true, true⟩
      ≠ CreateResult.nullHandle := by
  decide

/-- C5 amended: only a failure of the initial handle allocation makes
`T31Audio_create` complete and return NULL (terminate on the null
handle is a no-op); a failure of any later step (lock init, track-info
build, encoder/buffer init, or thread start) invokes terminate on the
partially built non-null handle, whose busy-wait never observes
`isTerminated` because no worker thread is running, so the call never
returns to the caller; when every step succeeds the handle is
returned. -/
theorem C5_create_failure_behavior (o : CreateOracle) :
    (o.mallocHandleOk = false → T31Audio_create o = CreateResult.nullHandle) ∧
    (o.mallocHandleOk = true → createStepsOk o = false →
      T31Audio_create o = CreateResult.neverReturns) ∧
    (o.mallocHandleOk = true → createStepsOk o = true →
      T31Audio_create o = CreateResult.validHandle) := by
  refine ⟨?_, ?_, ?_⟩
  · intro h1
    simp [T31Audio_create, h1, T31Audio_terminate]
  · intro h1 h2
    simp [T31Audio_create, h1, h2, T31Audio_terminate]
  · intro h1 h2
    simp [T31Audio_create, h1, h2]

/-- Witness for C5 at concrete step outcomes: handle-allocation
failure returns NULL, a thread-start failure never returns, full
success returns a handle. -/
theorem C5_witness :
    T31Audio_create ⟨false, true, true, true, true, true, true, true⟩
      = CreateResult.nullHandle ∧
    T31Audio_create ⟨true, true, true, true, true, true, true, false⟩
      = CreateResult.neverReturns ∧
    T31Audio_create ⟨true, true, true, true, true, true, true, true⟩
      = CreateResult.validHandle :=
  ⟨(C5_create_failure_behavior ⟨false, true, true, true, true, true, true, true⟩).1
      (by decide),
   (C5_create_failure_behavior ⟨true, true, true, true, true, true, true, false⟩).2.1
      (by decide) (by decide),
   (C5_create_failure_behavior ⟨true, true, true, true, true, true, true, true⟩).2.2
      (by decide) (by decide)⟩

/-- C6 counterexample: the PCM buffer is among the allocations made
during creation, but `T31Audio_terminate` never frees it — the only
free it performs is `KVS_FREE(pAudio)`, the handle struct itself. -/
theorem C6_counterexample :
    AllocKind.pcmBufAlloc ∈ createAllocations ∧
    TermAction.free AllocKind.pcmBufAlloc ∉ (T31Audio_terminate false true).actions := by
  decide

/-- C6 amended: terminate on a null handle is a no-op; on a non-null
handle whose worker eventually sets `isTerminated`, it sets the
termination-requested flag, busy-waits for `isTerminated`, joins the
worker thread and then frees only the handle struct — the lock, the
track info, the codec-private blob, the PCM buffer and the
encoded-frame buffer are never freed. -/
theorem C6_terminate_frees_only_handle :
    (∀ w : Bool, T31Audio_terminate true w = ⟨[], true⟩) ∧
    T31Audio_terminate false true
      = ⟨[TermAction.setTerminatingFlag, TermAction.waitTerminated,
          TermAction.joinThread, TermAction.free AllocKind.handleStruct], true⟩ ∧
    (∀ a : AllocKind, a ≠ AllocKind.handleStruct →
      ∀ w : Bool, TermAction.free a ∉ (T31Audio_terminate false w).actions) := by
  refine ⟨?_, rfl, ?_⟩
  · intro w
    rfl
  · intro a ha w
    cases a <;> cases w <;> first | exact absurd rfl ha | decide

/-- Witness for C6: the lock is an allocation distinct from the handle
struct and is not freed by terminate. -/
theorem C6_witness :
    TermAction.free AllocKind.lockRes ∉ (T31Audio_terminate false true).actions :=
  C6_terminate_frees_only_handle.2.2 AllocKind.lockRes (by decide) true

/-- C7 counterexample: cloning a handle whose stored track info keeps
its codec-private blob at address 912 returns a struct whose
`pCodecPrivate` field is that same address 912 — the `memcpy` copies
the pointer, so the clone's codec-private blob aliases storage owned by
the live handle instead of being independently owned. -/
theorem C7_counterexample :
    T31Audio_getAudioTrackInfoClone
        (some ⟨some ⟨1, 2, 16000, 1, 912, 5⟩⟩) true true
      = some ⟨1, 2, 16000, 1, 912, 5⟩ ∧
    (T31Audio_getAudioTrackInfoClone
        (some ⟨some ⟨1, 2, 16000, 1, 912, 5⟩⟩) true true).map
        AudioTrackInfoStruct.pCodecPrivate = some 912 := by
  decide

/-- C7 amended: on a live handle with stored track info, when the lock
and the allocation succeed, the clone is a freshly allocated struct
whose fields are copied verbatim — in particular its `pCodecPrivate` is
the very address of the blob owned by the live handle, so the
codec-private payload is aliased, not deep-copied; a null handle, a
failed lock, or a failed allocation yield NULL. -/
theorem C7_clone_aliases_codec_private (h : T31AudioHandleModel)
    (ti : AudioTrackInfoStruct) (hti : h.pAudioTrackInfo = some ti) :
    T31Audio_getAudioTrackInfoClone (some h) true true = some ti ∧
    (∀ c, T31Audio_getAudioTrackInfoClone (some h) true true = some c →
      c.pCodecPrivate = ti.pCodecPrivate) ∧
    T31Audio_getAudioTrackInfoClone none true true = none ∧
    T31Audio_getAudioTrackInfoClone (some h) false true = none ∧
    T31Audio_getAudioTrackInfoClone (some h) true false = none := by
  refine ⟨?_, ?_, rfl, ?_, ?_⟩
  · simp [T31Audio_getAudioTrackInfoClone, hti]
  · intro c hc
    simp only [T31Audio_getAudioTrackInfoClone, hti] at hc
    simp only [if_neg (by simp : ¬(true = false)), Bool.false_eq_true] at hc
    rw [← Option.some_inj.mp hc]
  · rfl
  · simp [T31Audio_getAudioTrackInfoClone, hti]

/-- Witness for C7 at a concrete handle. -/
theorem C7_witness :
    T31Audio_getAudioTrackInfoClone
        (some ⟨some ⟨1, 2, 16000, 1, 912, 5⟩⟩) true true
      = some ⟨1, 2, 16000, 1, 912, 5⟩ ∧
    (∀ c, T31Audio_getAudioTrackInfoClone
        (some ⟨some ⟨1, 2, 16000, 1, 912, 5⟩⟩) true true = some c →
      c.pCodecPrivate
        = (⟨1, 2, 16000, 1, 912, 5⟩ : AudioTrackInfoStruct).pCodecPrivate) ∧
    T31Audio_getAudioTrackInfoClone none true true = none ∧
    T31Audio_getAudioTrackInfoClone
        (some ⟨some ⟨1, 2, 16000, 1, 912, 5⟩⟩) false true = none ∧
    T31Audio_getAudioTrackInfoClone
        (some ⟨some ⟨1, 2, 16000, 1, 912, 5⟩⟩) true false = none :=
  C7_clone_aliases_codec_private ⟨some ⟨1, 2, 16000, 1, 912, 5⟩⟩
    ⟨1, 2, 16000, 1, 912, 5⟩ rfl

/-- C9 counterexample: when the first configuration call fails, the
worker skips the loop and both disable calls yet still sets
`isTerminated` — so `hasTerminated` becomes true without any device
teardown step having been attempted, on exactly the
configuration-failure path the claim singles out. -/
theorem C9_counterexample :
    audioThread ⟨false, true, true, true, true, true, true, true⟩ []
      = some [ThreadEv.evSetTerminated] ∧
    ThreadEv.evDisableChn ∉ [ThreadEv.evSetTerminated] ∧
    ThreadEv.evDisable ∉ [ThreadEv.evSetTerminated] := by
  decide

/-- C9 amended: in every completed worker execution `isTerminated` is
set exactly once, by the worker, as its final event; when configuration
succeeded and the loop exited, the channel-disable is attempted first,
and the device-disable is attempted exactly when the channel-disable
succeeded (the `||` at line 264 short-circuits past it otherwise); when
configuration failed, `isTerminated` is set with no teardown attempt at
all; and the loop exits with reason `observedTermination` only when
some iteration actually read `isTerminating = true`, so only on that
exit path is the termination request guaranteed to precede
`hasTerminated`. -/
theorem C9_terminated_set_once_last :
    (∀ (o : AudioThreadOracle) (script : List IterInput) (tr : List ThreadEv),
      audioThread o script = some tr →
      tr.count ThreadEv.evSetTerminated = 1 ∧
      tr.getLast? = some ThreadEv.evSetTerminated) ∧
    (∀ (o : AudioThreadOracle) (script : List IterInput) (tr : List ThreadEv),
      audioConfigOk o = true → audioThread o script = some tr →
      (o.disableChnOk = true →
        tr = [ThreadEv.evDisableChn, ThreadEv.evDisable, ThreadEv.evSetTerminated]) ∧
      (o.disableChnOk = false →
        tr = [ThreadEv.evDisableChn, ThreadEv.evSetTerminated])) ∧
    (∀ (o : AudioThreadOracle) (script : List IterInput),
      audioConfigOk o = false →
      audioThread o script = some [ThreadEv.evSetTerminated]) ∧
    (∀ script : List IterInput,
      runLoop script = some ExitReason.observedTermination →
      ∃ it ∈ script, it.isTerminating = true) := by
  refine ⟨?_, ?_, ?_, ?_⟩
  · intro o script tr h
    by_cases hc : audioConfigOk o = false
    · simp only [audioThread] at h
      rw [if_pos hc] at h
      rw [← Option.some_inj.mp h]
      decide
    · simp only [audioThread] at h
      rw [if_neg hc] at h
      cases hrl : runLoop script with
      | none =>
          rw [hrl] at h
          exact absurd h (by simp)
      | some r =>
          rw [hrl] at h
          by_cases hd : o.disableChnOk = true
          · rw [if_pos hd] at h
            rw [← Option.some_inj.mp h]
            decide
          · rw [if_neg hd] at h
            rw [← Option.some_inj.mp h]
            decide
  · intro o script tr hc h
    simp only [audioThread] at h
    rw [if_neg (by simp [hc])] at h
    cases hrl : runLoop script with
    | none =>
        rw [hrl] at h
        exact absurd h (by simp)
    | some r =>
        rw [hrl] at h
        constructor
        · intro hd
          rw [if_pos hd] at h
          exact (Option.some_inj.mp h).symm
        · intro hd
          rw [if_neg (by simp [hd])] at h
          exact (Option.some_inj.mp h).symm
  · intro o script hc
    simp only [audioThread]
    rw [if_pos hc]
  · intro script h
    induction script with
    | nil => exact absurd h (by simp [runLoop])
    | cons it rest ih =>
        cases hit : loopIter it with
        | nextPoll =>
            simp only [runLoop, hit] at h
            obtain ⟨x, hx, ht⟩ := ih h
            exact ⟨x, List.mem_cons_of_mem _ hx, ht⟩
        | exitLoop r =>
            simp only [runLoop, hit, Option.some_inj] at h
            subst h
            refine ⟨it, List.mem_cons_self _ _, ?_⟩
            by_cases hterm : it.isTerminating = true
            · exact hterm
            · exfalso
              simp only [loopIter] at hit
              split_ifs at hit <;> simp_all

/-- Witness for C9: the exactly-once/last property applied to a
completed run, and the configuration-failure characterization applied
to a failing oracle. -/
theorem C9_witness :
    ([ThreadEv.evDisableChn, ThreadEv.evDisable, ThreadEv.evSetTerminated].count
        ThreadEv.evSetTerminated = 1 ∧
      [ThreadEv.evDisableChn, ThreadEv.evDisable,
        ThreadEv.evSetTerminated].getLast? = some ThreadEv.evSetTerminated) ∧
    audioThread ⟨true, false, true, true, true, true, true, true⟩ []
      = some [ThreadEv.evSetTerminated] :=
  ⟨C9_terminated_set_once_last.1 ⟨true, true, true, true, true, true, true, true⟩
      [⟨true, true, true, true, true⟩]
      [ThreadEv.evDisableChn, ThreadEv.evDisable, ThreadEv.evSetTerminated]
      (by decide),
    C9_terminated_set_once_last.2.2.1 ⟨true, false, true, true, true, true, true, true⟩
      [] (by decide)⟩
